import Mathlib

/-!
Verification of the g3 bidirectional content-adaptation core against its
specification.  Bytes are modelled as natural numbers (the byte value), byte
streams as lists.  Stateful Rust futures are embedded as explicit state
machines with a per-poll step function; the per-poll write quota of the sink
is an explicit parameter, so short writes and pending polls are represented.
-/

namespace G3

/-! ## Chunked transfer framing primitives (g3-http/src/body/body_to_chunked.rs) -/

/-- The byte sequence CRLF. -/
def CRLF : List Nat := [13, 10]

/-- `NO_TRAILER_END_BUFFER`, the bytes of the Rust constant
`b"\r\n0\r\n\r\n"` (body_to_chunked.rs line 15). -/
def NO_TRAILER_END_BUFFER : List Nat := [13, 10, 48, 13, 10, 13, 10]

/-- The chunked terminator `0` CRLF CRLF, i.e. the last five bytes of
`NO_TRAILER_END_BUFFER`. -/
def TERM_BUFFER : List Nat := [48, 13, 10, 13, 10]

/-- Lowercase hex digit byte for a value below 16, as produced by the Rust
format specifier `{len:x}`. -/
def hexDigitByte (d : Nat) : Nat := if d < 10 then 48 + d else 97 + (d - 10)

/-- Fuel driven hex digit expansion, most significant digit first. -/
def toHexBytesAux : Nat → Nat → List Nat
  | 0, _ => []
  | fuel + 1, n =>
    if n = 0 then [] else toHexBytesAux fuel (n / 16) ++ [hexDigitByte (n % 16)]

/-- The lowercase hex representation of `n`, most significant digit first,
as produced by `format!("{n:x}")` for positive `n`. -/
def toHexBytes (n : Nat) : List Nat := toHexBytesAux n n

/-- Value of one hex digit byte (accepting the digits this writer emits). -/
def hexVal (b : Nat) : Option Nat :=
  if 48 ≤ b ∧ b ≤ 57 then some (b - 48)
  else if 97 ≤ b ∧ b ≤ 102 then some (b - 87)
  else none

/-- Accumulating hex parser over a digit byte list. -/
def parseHexAcc (acc : Nat) : List Nat → Option Nat
  | [] => some acc
  | b :: rest =>
    match hexVal b with
    | some d => parseHexAcc (acc * 16 + d) rest
    | none => none

/-- Parse a nonempty hex digit byte list. -/
def parseHexBytes (l : List Nat) : Option Nat :=
  if l = [] then none else parseHexAcc 0 l

/-- Split the input at the first CRLF: returns the line before it and the
rest after it. -/
def splitLine : List Nat → Option (List Nat × List Nat)
  | [] => none
  | b :: rest =>
    if b = 13 then
      match rest with
      | 10 :: rest2 => some ([], rest2)
      | _ => none
    else
      (splitLine rest).map (fun p => (b :: p.1, p.2))

/-- One de-framing pass of an HTTP/1 chunked stream (RFC 9112 section 7.1):
repeatedly read a hex size line, take that many payload bytes and the CRLF
after them; a size of zero ends the body.  Returns the concatenated payload
and the bytes after the zero-size line. -/
def dechunkAux : Nat → List Nat → List Nat → Option (List Nat × List Nat)
  | 0, _, _ => none
  | fuel + 1, acc, input =>
    (splitLine input).bind fun p =>
      (parseHexBytes p.1).bind fun n =>
        if n = 0 then some (acc, p.2)
        else if p.2.length < n then none
        else if (p.2.drop n).take 2 = [13, 10] then
          dechunkAux fuel (acc ++ p.2.take n) ((p.2.drop n).drop 2)
        else none

/-- De-frame an HTTP/1 chunked stream. -/
def dechunk (input : List Nat) : Option (List Nat × List Nat) :=
  dechunkAux (input.length + 1) [] input

/-- The wire framing of one nonempty chunk: hex size line, payload, CRLF. -/
def frameChunk (c : List Nat) : List Nat :=
  toHexBytes c.length ++ CRLF ++ c ++ CRLF

/-- The wire framing of a chunk sequence (without terminator). -/
def frameChunks (cs : List (List Nat)) : List Nat :=
  (cs.map frameChunk).flatten

/-- Modelled from the spec: `HttpBodyReader::new_chunked` is not under src
(only its callers are).  Per spec section 4.3 it surfaces the chunked body
verbatim, including the chunk framing and the trailer section, stopping
exactly at the body boundary.  For a body made of the given nonempty chunks
followed by a trailer section, the surfaced bytes are the framed chunks, the
zero size line, the trailer bytes and the final CRLF. -/
def chunkedReaderSurfaced (chunks : List (List Nat)) (trailer : List Nat) : List Nat :=
  frameChunks chunks ++ 48 :: 13 :: 10 :: (trailer ++ CRLF)

/-! ## H1BodyToChunkedTransfer state machine

Translated from `H1BodyToChunkedTransfer` and its `Future::poll` in
body_to_chunked.rs.  The inner `ROwnedStreamCopy` of a `HttpBodyReader`
(spec section 4.1 and 4.3, source not under src) is modelled as a buffer of
the bytes the reader surfaces together with the copied-bytes counter; the
`StreamToChunkedTransfer` encoder (spec section 4.2 `Encode` row, source not
under src) is modelled from the spec: each nonempty read batch is emitted as
one framed chunk, on EOF the terminator is emitted, and the value returned
on completion is the total payload byte count.  On a pending poll the
source sets `active |= inner.is_active()`; the model equates the inner
activity with having moved bytes during the poll. -/

/-- Model of `ROwnedStreamCopy` over an `HttpBodyReader`: the bytes still to
copy to the sink and the bytes copied so far. -/
structure CopyModel where
  toWrite : List Nat
  copied : Nat
deriving DecidableEq

/-- Modelled from the spec: state of the `StreamToChunkedTransfer` encoder
(`ReadUntilEnd` re-encoding).  `cur` is the framed buffer in flight,
`batches` the source read batches not yet framed, `termLoaded` whether the
terminator has been loaded into `cur`, `payloadTotal` the payload byte count
returned on completion. -/
structure EncodeModel where
  cur : List Nat
  batches : List (List Nat)
  termLoaded : Bool
  payloadTotal : Nat
deriving DecidableEq

/-- `ChunkedTransferState` (body_to_chunked.rs lines 37-44).  `SendHead`
keeps the head buffer, the write offset into it and the bytes the fixed
length body reader will surface; `End` is rendered `stateEnd`. -/
inductive ChunkedTransferState where
  | sendHead (head : List Nat) (offset : Nat) (bodyToCopy : List Nat)
  | copy (c : CopyModel)
  | sendNoTrailerEnd (offset : Nat)
  | encode (e : EncodeModel)
  | flushEnd
  | stateEnd
deriving DecidableEq

/-- `H1BodyToChunkedTransfer` (body_to_chunked.rs lines 17-23).
`bodyTypeIsFixed` embeds `matches!(self.body_type, HttpBodyType::ContentLength(_))`,
the only use made of the stored `body_type` in `poll`. -/
structure H1BodyToChunkedTransfer where
  bodyTypeIsFixed : Bool
  state : ChunkedTransferState
  total_write : Nat
  active : Bool
deriving DecidableEq

/-- `new_fixed_length` (lines 85-111): for zero length the state starts at
`SendNoTrailerEnd` with offset 2 (skipping the leading CRLF); otherwise a
`SendHead` holding the hex size line, with the fixed length reader
surfacing exactly the first `len` body bytes. -/
def H1BodyToChunkedTransfer.new_fixed_length (body : List Nat) (len : Nat) :
    H1BodyToChunkedTransfer :=
  if len = 0 then
    { bodyTypeIsFixed := true
      state := .sendNoTrailerEnd 2
      total_write := 0
      active := false }
  else
    { bodyTypeIsFixed := true
      state := .sendHead (toHexBytes len ++ CRLF) 0 (body.take len)
      total_write := 0
      active := false }

/-- `new_chunked` (lines 113-128): a direct copy of the bytes the chunked
body reader surfaces. -/
def H1BodyToChunkedTransfer.new_chunked (surfacedBody : List Nat) :
    H1BodyToChunkedTransfer :=
  { bodyTypeIsFixed := false
    state := .copy ⟨surfacedBody, 0⟩
    total_write := 0
    active := false }

/-- `new_read_until_end` (lines 69-83): the streaming encoder over the
source read batches. -/
def H1BodyToChunkedTransfer.new_read_until_end (batches : List (List Nat)) :
    H1BodyToChunkedTransfer :=
  { bodyTypeIsFixed := false
    state := .encode ⟨[], batches, false, (batches.map List.length).sum⟩
    total_write := 0
    active := false }

/-- Result of one poll: the machine after the poll, the bytes written to the
sink during the poll, and whether the poll returned Ready(Ok). -/
structure PollOut where
  m : H1BodyToChunkedTransfer
  wrote : List Nat
  done : Bool
deriving DecidableEq

/-- One `poll` of `H1BodyToChunkedTransfer` (body_to_chunked.rs lines
197-286), with `quota` the number of bytes the sink accepts during this
poll.  The fuel bounds the `self.poll(cx)` tail recursions after a state
switch (`SendHead` to `Copy` at line 219, `Copy` to `SendNoTrailerEnd` at
line 243); a fuel of 3 covers the longest chain. -/
def pollStepAux : Nat → H1BodyToChunkedTransfer → Nat → PollOut
  | 0, m, _ => ⟨m, [], false⟩
  | fuel + 1, m, quota =>
    match m.state with
    | .sendHead head off body =>
      let remaining := head.drop off
      if remaining.length ≤ quota then
        -- head fully drained: account the head bytes, switch to Copy and
        -- poll again within the same call (lines 206-219)
        let m1 : H1BodyToChunkedTransfer :=
          { m with state := .copy ⟨body, 0⟩
                   total_write := m.total_write + head.length
                   active := true }
        let next := pollStepAux fuel m1 (quota - remaining.length)
        ⟨next.m, remaining ++ next.wrote, next.done⟩
      else
        ⟨{ m with state := .sendHead head (off + quota) body },
          remaining.take quota, false⟩
    | .copy c =>
      if c.toWrite.length ≤ quota then
        -- the inner copy completes with Ready(Ok(n)) (lines 228-231)
        let n := c.copied + c.toWrite.length
        if m.bodyTypeIsFixed then
          let m1 : H1BodyToChunkedTransfer :=
            { m with state := .sendNoTrailerEnd 0
                     total_write := m.total_write + n
                     active := true }
          let next := pollStepAux fuel m1 (quota - c.toWrite.length)
          ⟨next.m, c.toWrite ++ next.wrote, next.done⟩
        else
          ⟨{ m with state := .stateEnd
                    total_write := m.total_write + n
                    active := true }, c.toWrite, true⟩
      else
        ⟨{ m with state := .copy ⟨c.toWrite.drop quota, c.copied + quota⟩
                  active := m.active || decide (0 < quota) },
          c.toWrite.take quota, false⟩
    | .sendNoTrailerEnd off =>
      let remaining := NO_TRAILER_END_BUFFER.drop off
      if remaining.length ≤ quota then
        -- trailer end drained: Ready(Ok) with state FlushEnd (lines 256-262)
        ⟨{ m with state := .flushEnd, active := true }, remaining, true⟩
      else
        ⟨{ m with state := .sendNoTrailerEnd (off + quota) },
          remaining.take quota, false⟩
    | .encode e =>
      if e.cur.length ≤ quota then
        match e.batches with
        | b :: bs =>
          ⟨{ m with state := .encode ⟨frameChunk b, bs, e.termLoaded, e.payloadTotal⟩
                    active := true }, e.cur, false⟩
        | [] =>
          if e.termLoaded then
            ⟨{ m with state := .stateEnd
                      total_write := m.total_write + e.payloadTotal
                      active := true }, e.cur, true⟩
          else
            ⟨{ m with state := .encode ⟨TERM_BUFFER, [], true, e.payloadTotal⟩
                      active := true }, e.cur, false⟩
      else
        ⟨{ m with state := .encode ⟨e.cur.drop quota, e.batches, e.termLoaded, e.payloadTotal⟩
                  active := m.active || decide (0 < quota) },
          e.cur.take quota, false⟩
    | .flushEnd => ⟨m, [], true⟩
    | .stateEnd => ⟨m, [], true⟩

/-- One poll with enough fuel for every tail recursion chain. -/
def pollStep (m : H1BodyToChunkedTransfer) (quota : Nat) : PollOut :=
  pollStepAux 3 m quota

/-- Run the machine through a list of per-poll quotas, stopping as soon as a
poll returns Ready.  Returns the final machine, all bytes written, and
whether the transfer completed. -/
def runPolls : H1BodyToChunkedTransfer → List Nat →
    H1BodyToChunkedTransfer × List Nat × Bool
  | m, [] => (m, [], false)
  | m, q :: qs =>
    let r := pollStep m q
    if r.done then (r.m, r.wrote, true)
    else
      let rest := runPolls r.m qs
      (rest.1, r.wrote ++ rest.2.1, rest.2.2)

/-- The bytes a machine state will still write to the sink on a successful
run. -/
def stateFutureOut (isFixed : Bool) : ChunkedTransferState → List Nat
  | .sendHead head off body =>
    head.drop off ++ body ++ (if isFixed then NO_TRAILER_END_BUFFER else [])
  | .copy c => c.toWrite ++ (if isFixed then NO_TRAILER_END_BUFFER else [])
  | .sendNoTrailerEnd off => NO_TRAILER_END_BUFFER.drop off
  | .encode e =>
    e.cur ++ (e.batches.map frameChunk).flatten ++
      (if e.termLoaded then [] else TERM_BUFFER)
  | .flushEnd => []
  | .stateEnd => []

/-- The bytes a machine will still write to the sink on a successful run. -/
def futureOut (m : H1BodyToChunkedTransfer) : List Nat :=
  stateFutureOut m.bodyTypeIsFixed m.state

/-- True on the states other than `SendHead`, `Copy` and `Encode`. -/
def noHeadCopyState : ChunkedTransferState → Bool
  | .sendNoTrailerEnd _ => true
  | .flushEnd => true
  | .stateEnd => true
  | _ => false

/-- True on the two states a Ready poll can leave behind. -/
def terminalState : ChunkedTransferState → Bool
  | .flushEnd => true
  | .stateEnd => true
  | _ => false

/-- Invariant of a fixed length transfer: `headLen` is the byte length of
the hex size line, `len` the payload length; `total_write` accounts the
head bytes once the head is drained and the payload bytes once the inner
copy completed, and never the trailer end bytes. -/
def fixedLenInv (headLen len : Nat) (m : H1BodyToChunkedTransfer) : Prop :=
  m.bodyTypeIsFixed = true ∧
  match m.state with
  | .sendHead head _ body =>
    head.length = headLen ∧ body.length = len ∧ m.total_write = 0
  | .copy c => c.copied + c.toWrite.length = len ∧ m.total_write = headLen
  | .sendNoTrailerEnd _ => m.total_write = headLen + len
  | .encode _ => False
  | .flushEnd => m.total_write = headLen + len
  | .stateEnd => m.total_write = headLen + len

/-! ## Bidirectional ICAP driver
(g3-icap-client/src/respmod/h1/bidirectional.rs).  Error payloads (io
errors, anyhow details, force quit reasons) do not influence any verified
property and are elided from the variants. -/

/-- `H1RespmodAdaptationError`, variants relevant to the bidirectional
driver. -/
inductive H1RespmodAdaptationError where
  | httpUpstreamReadFailed
  | icapServerWriteFailed
  | icapServerReadFailed
  | httpClientWriteFailed
  | icapServerConnectionClosed
  | httpUpstreamReadIdle
  | icapServerWriteIdle
  | icapServerReadIdle
  | httpClientWriteIdle
  | invalidHttpBodyFromIcapServer
  | idleForceQuit
deriving DecidableEq

/-- Idle quit verdict of `transfer_and_recv` (bidirectional.rs lines 62-66):
the only watched leg is the upstream-to-ICAP body transfer; blame follows
its cached-data state. -/
def transferAndRecvIdleVerdict (noCachedData : Bool) : H1RespmodAdaptationError :=
  if noCachedData then .httpUpstreamReadIdle else .icapServerWriteIdle

/-- Idle quit verdict of `do_transfer` (bidirectional.rs lines 207-217),
as a function of the upstream-leg idle flag and the cached-data state of
both legs.  The client leg is known idle at every quit (the idle count is
only advanced when both legs are idle, line 202). -/
def doTransferIdleVerdict (upsIdle upsNoCachedData cltNoCachedData : Bool) :
    H1RespmodAdaptationError :=
  if upsIdle then
    if upsNoCachedData then .httpUpstreamReadIdle else .icapServerWriteIdle
  else if cltNoCachedData then .icapServerReadIdle
  else .httpClientWriteIdle

/-- The blame table of spec section 4.4, as written: rows keyed on
(upstream-leg idle, its cache empty, client-leg idle, its cache empty);
no row applies when neither leg is idle. -/
def specBlameVerdict (upsIdle upsCacheEmpty cltIdle cltCacheEmpty : Bool) :
    Option H1RespmodAdaptationError :=
  if upsIdle then
    some (if upsCacheEmpty then .httpUpstreamReadIdle else .icapServerWriteIdle)
  else if cltIdle then
    some (if cltCacheEmpty then .icapServerReadIdle else .httpClientWriteIdle)
  else none

/-- Result of a `StreamCopy` style future: `Ok(copied)` or one of the two
`StreamCopyError` variants. -/
inductive StreamCopyResult where
  | ok (copied : Nat)
  | readFailed
  | writeFailed
deriving DecidableEq

/-- Outcome of `do_transfer`. -/
inductive DoTransferOutcome where
  | ok
  | err (e : H1RespmodAdaptationError)
deriving DecidableEq

/-- The upstream-completion arm of the `do_transfer` select (bidirectional.rs
lines 181-193): on upstream `Ok` the client-leg copy is awaited directly to
completion and its result mapped; upstream errors are mapped to the
upstream and ICAP write blame. -/
def doTransferUpsArmResult (upsResult cltAwaitResult : StreamCopyResult) :
    DoTransferOutcome :=
  match upsResult with
  | .ok _ =>
    match cltAwaitResult with
    | .ok _ => .ok
    | .readFailed => .err .icapServerReadFailed
    | .writeFailed => .err .httpClientWriteFailed
  | .readFailed => .err .httpUpstreamReadFailed
  | .writeFailed => .err .icapServerWriteFailed

/-- The client-leg completion arm of the `do_transfer` select (lines
194-200). -/
def doTransferCltArmResult (cltResult : StreamCopyResult) : DoTransferOutcome :=
  match cltResult with
  | .ok _ => .ok
  | .readFailed => .err .icapServerReadFailed
  | .writeFailed => .err .httpClientWriteFailed

/-- `RespmodAdaptationEndState` outcomes produced by
`BidirectionalRecvHttpResponse::transfer` (the adapted response payload is
elided). -/
inductive RespmodAdaptationEndState where
  | adaptedTransferred
deriving DecidableEq

/-- The body phase of `BidirectionalRecvHttpResponse::transfer`
(bidirectional.rs lines 125-163) after a successful `do_transfer`, as a
function of the declared `content_length` of the adapted response and the
client-leg copied size: `Some(0)` is rejected outright because an http-body
section is present; `Some(expected)` is compared against the copied size;
`None` streams the ICAP chunked body through. -/
def contentLengthVerdict (bodyContentLength : Option Nat) (copied : Nat) :
    Except H1RespmodAdaptationError RespmodAdaptationEndState :=
  match bodyContentLength with
  | some 0 => .error .invalidHttpBodyFromIcapServer
  | some expected =>
    if copied ≠ expected then .error .invalidHttpBodyFromIcapServer
    else .ok .adaptedTransferred
  | none => .ok .adaptedTransferred

/-! ### Select loops

`tokio::select!` polls its arms in declaration order when the `biased;`
marker is present; without it, each iteration starts from a runtime chosen
random arm and wraps around. -/

/-- Arms of the `transfer_and_recv` select (bidirectional.rs lines 38-78),
in declaration order. -/
inductive RespmodSelectArm where
  | bodyTransfer
  | icapReaderWait
  | idleTick
deriving DecidableEq

/-- Arms of the `do_transfer` select (bidirectional.rs lines 179-230), in
declaration order. -/
inductive DoTransferSelectArm where
  | upsBodyTransfer
  | cltBodyTransfer
  | idleTick
deriving DecidableEq

/-- Rotation of a list, used to model the unbiased select start point. -/
def rotate {α : Type} (l : List α) (n : Nat) : List α :=
  l.drop n ++ l.take n

/-- The `transfer_and_recv` select carries the `biased;` marker
(bidirectional.rs line 40). -/
def transferAndRecvHasBiased : Bool := true

/-- The `do_transfer` select carries no `biased;` marker (bidirectional.rs
line 180). -/
def doTransferHasBiased : Bool := false

/-- Arms of `transfer_and_recv` in declaration order. -/
def transferAndRecvArms : List RespmodSelectArm :=
  [.bodyTransfer, .icapReaderWait, .idleTick]

/-- Arms of `do_transfer` in declaration order. -/
def doTransferArms : List DoTransferSelectArm :=
  [.upsBodyTransfer, .cltBodyTransfer, .idleTick]

/-- Poll order of one `transfer_and_recv` select iteration given the runtime
chosen random start arm (unused because the select is biased). -/
def transferAndRecvPollOrder (start : Fin 3) : List RespmodSelectArm :=
  if transferAndRecvHasBiased then transferAndRecvArms
  else rotate transferAndRecvArms start

/-- Poll order of one `do_transfer` select iteration given the runtime
chosen random start arm. -/
def doTransferPollOrder (start : Fin 3) : List DoTransferSelectArm :=
  if doTransferHasBiased then doTransferArms
  else rotate doTransferArms start

/-! ## Server configuration parsing
(g3proxy/src/config/server/tcp_tproxy.rs and
g3tiles/src/config/server/openssl_proxy/mod.rs).  Only the fields the
verified claims touch are modelled; the yaml value decoding helpers are
outside src and are modelled as taking the already decoded value.  Keys are
the already normalized key strings (`g3_yaml::key::normalize` is outside
src). -/

/-- `TcpTProxyServerConfig`, restricted to the fields the claims touch.
`nameIsEmpty`, `escaperIsEmpty` and `listenCheckOk` stand for the outcomes
of the opaque checks `self.name.is_empty()`, `self.escaper.is_empty()` and
`self.listen.check()`. -/
structure TcpTProxyServerConfig where
  tcp_sock_speed_limit : Nat
  task_idle_check_duration : Nat
  nameIsEmpty : Bool
  escaperIsEmpty : Bool
  listenCheckOk : Bool
deriving DecidableEq

/-- Outcome of one `set` call: the updated config and whether a deprecation
warning was logged. -/
structure SetOutcome (C : Type) where
  cfg : C
  warned : Bool

/-- The speed limit and alias arms of `TcpTProxyServerConfig::set`
(tcp_tproxy.rs lines 125-133) together with the invalid key fallthrough
(line 175).  The deprecated alias arm logs a warning and re-enters `set`
with the canonical key (inlined here). -/
def tcpTProxySet (c : TcpTProxyServerConfig) (k : String) (v : Nat) :
    Except String (SetOutcome TcpTProxyServerConfig) :=
  if k = "tcp_sock_speed_limit" then
    .ok ⟨{ c with tcp_sock_speed_limit := v }, false⟩
  else if k = "tcp_conn_speed_limit" ∨ k = "tcp_conn_limit" ∨ k = "conn_limit" then
    .ok ⟨{ c with tcp_sock_speed_limit := v }, true⟩
  else .error ("invalid key " ++ k)

/-- `OpensslProxyServerConfig`, restricted to the fields the claims touch.
`hostsIsEmpty` stands for `self.hosts.is_empty()`. -/
structure OpensslProxyServerConfig where
  tcp_sock_speed_limit : Nat
  task_idle_check_duration : Nat
  nameIsEmpty : Bool
  hostsIsEmpty : Bool
deriving DecidableEq

/-- The speed limit arm of `OpensslProxyServerConfig::set`
(openssl_proxy/mod.rs lines 168-172: `"tcp_sock_speed_limit" |
"tcp_conn_speed_limit"` with no warning) together with the invalid key
fallthrough (line 235); `conn_limit` matches no arm. -/
def opensslProxySet (c : OpensslProxyServerConfig) (k : String) (v : Nat) :
    Except String (SetOutcome OpensslProxyServerConfig) :=
  if k = "tcp_sock_speed_limit" ∨ k = "tcp_conn_speed_limit" then
    .ok ⟨{ c with tcp_sock_speed_limit := v }, false⟩
  else .error ("invalid key " ++ k)

/-- Modelled from the spec: the constant `IDLE_CHECK_MAXIMUM_DURATION` is
defined in the server config module roots, which are not under src; spec
section 4.5 gives the implementation maximum as five minutes.  Durations
are modelled in seconds. -/
def IDLE_CHECK_MAXIMUM_DURATION : Nat := 300

/-- `TcpTProxyServerConfig::check` (tcp_tproxy.rs lines 179-195): reject an
empty name or escaper, clamp `task_idle_check_duration` to the maximum,
then run the listen config check. -/
def tcpTProxyCheck (c : TcpTProxyServerConfig) :
    Except String TcpTProxyServerConfig :=
  if c.nameIsEmpty then .error "name is not set"
  else if c.escaperIsEmpty then .error "escaper is not set"
  else
    let c1 :=
      if IDLE_CHECK_MAXIMUM_DURATION < c.task_idle_check_duration then
        { c with task_idle_check_duration := IDLE_CHECK_MAXIMUM_DURATION }
      else c
    if c1.listenCheckOk then .ok c1 else .error "listen check failed"

/-- `OpensslProxyServerConfig::check` (openssl_proxy/mod.rs lines 102-113):
reject an empty name or an empty host set, clamp
`task_idle_check_duration` to the maximum. -/
def opensslProxyCheck (c : OpensslProxyServerConfig) :
    Except String OpensslProxyServerConfig :=
  if c.nameIsEmpty then .error "name is not set"
  else if c.hostsIsEmpty then .error "no host config set"
  else
    .ok (if IDLE_CHECK_MAXIMUM_DURATION < c.task_idle_check_duration then
      { c with task_idle_check_duration := IDLE_CHECK_MAXIMUM_DURATION }
    else c)

/-! ## Dual-family UDP relay receiver
(g3proxy/src/escape/direct_fixed/udp_relay/recv.rs).  A socket is modelled
by the outcome its `poll_recv_from` (or `poll_batch_recvmsg`) returns at
this call; addresses and io errors are abstract numbers. -/

/-- The poll outcome of an async operation. -/
inductive Poll (α : Type) where
  | ready (v : α)
  | pending
deriving DecidableEq

/-- `UdpRelayRemoteError`, variants relevant here: a receive failure carries
the bind address of the failing listener. -/
inductive UdpRelayRemoteError where
  | recvFailed (bind : Nat) (e : Nat)
  | noListenSocket
deriving DecidableEq

/-- `DirectUdpRelayRemoteRecv` (recv.rs lines 22-27): two optional
per-family sockets with their recorded bind addresses.  Each present socket
is modelled by the outcome its `poll_recv_from` returns: `(nr, addr)` on
success or an io error. -/
structure DirectUdpRelayRemoteRecv where
  inner_v4 : Option (Poll (Except Nat (Nat × Nat)))
  inner_v6 : Option (Poll (Except Nat (Nat × Nat)))
  bind_v4 : Nat
  bind_v6 : Nat

/-- Mapping of one socket receive outcome to the relay result: errors are
annotated with the bind address, successes are prefixed with offset 0. -/
def mapRecvResult (bind : Nat) (t : Except Nat (Nat × Nat)) :
    Except UdpRelayRemoteError (Nat × Nat × Nat) :=
  match t with
  | .ok (nr, addr) => .ok (0, nr, addr)
  | .error e => .error (.recvFailed bind e)

/-- `DirectUdpRelayRemoteRecv::poll_recv_packet` (recv.rs lines 54-87):
with both sockets present, v4 is polled first and its result returned
whenever ready; v6 is consulted only when v4 is pending.  With a single
socket that socket is polled; with no socket the call fails with
`NoListenSocket`. -/
def DirectUdpRelayRemoteRecv.poll_recv_packet (s : DirectUdpRelayRemoteRecv) :
    Poll (Except UdpRelayRemoteError (Nat × Nat × Nat)) :=
  match s.inner_v4, s.inner_v6 with
  | some r4, some r6 =>
    match r4 with
    | .ready t => .ready (mapRecvResult s.bind_v4 t)
    | .pending =>
      match r6 with
      | .ready t => .ready (mapRecvResult s.bind_v6 t)
      | .pending => .pending
  | some r4, none =>
    match r4 with
    | .ready t => .ready (mapRecvResult s.bind_v4 t)
    | .pending => .pending
  | none, some r6 =>
    match r6 with
    | .ready t => .ready (mapRecvResult s.bind_v6 t)
    | .pending => .pending
  | none, none => .ready (.error .noListenSocket)

/-- Batch receiver state (recv.rs lines 158-174): each present socket is
modelled by the outcome of its batched receive, a packet count or an io
error. -/
structure DirectUdpRelayRemoteRecvBatch where
  inner_v4 : Option (Poll (Except Nat Nat))
  inner_v6 : Option (Poll (Except Nat Nat))
  bind_v4 : Nat
  bind_v6 : Nat

/-- Mapping of one batched receive outcome: errors are annotated with the
bind address. -/
def mapBatchRecvResult (bind : Nat) (t : Except Nat Nat) :
    Except UdpRelayRemoteError Nat :=
  match t with
  | .ok count => .ok count
  | .error e => .error (.recvFailed bind e)

/-- `UdpRelayRemoteRecv::poll_recv_packets` for
`DirectUdpRelayRemoteRecv` (recv.rs lines 158-174): with both sockets
present the v4 batch receive runs first and its result is returned whenever
ready; v6 runs only when v4 is pending; with no socket the call fails with
`NoListenSocket`. -/
def DirectUdpRelayRemoteRecvBatch.poll_recv_packets
    (s : DirectUdpRelayRemoteRecvBatch) : Poll (Except UdpRelayRemoteError Nat) :=
  match s.inner_v4, s.inner_v6 with
  | some r4, some r6 =>
    match r4 with
    | .ready t => .ready (mapBatchRecvResult s.bind_v4 t)
    | .pending =>
      match r6 with
      | .ready t => .ready (mapBatchRecvResult s.bind_v6 t)
      | .pending => .pending
  | some r4, none =>
    match r4 with
    | .ready t => .ready (mapBatchRecvResult s.bind_v4 t)
    | .pending => .pending
  | none, some r6 =>
    match r6 with
    | .ready t => .ready (mapBatchRecvResult s.bind_v6 t)
    | .pending => .pending
  | none, none => .ready (.error .noListenSocket)

/-! ## Lemmas: hex framing and de-framing -/

theorem hexVal_hexDigitByte {d : Nat} (h : d < 16) :
    hexVal (hexDigitByte d) = some d := by
  unfold hexVal hexDigitByte
  split_ifs <;> (congr 1; omega)

theorem hexDigitByte_ne_13 {d : Nat} (h : d < 16) : hexDigitByte d ≠ 13 := by
  unfold hexDigitByte
  split_ifs <;> omega

theorem toHexBytesAux_congr : ∀ (n f₁ f₂ : Nat), n ≤ f₁ → n ≤ f₂ →
    toHexBytesAux f₁ n = toHexBytesAux f₂ n := by
  intro n
  induction n using Nat.strong_induction_on with
  | _ n ih =>
    intro f₁ f₂ h₁ h₂
    rcases Nat.eq_zero_or_pos n with rfl | hpos
    · cases f₁ <;> cases f₂ <;> simp [toHexBytesAux]
    · obtain ⟨g₁, rfl⟩ : ∃ g, f₁ = g + 1 := ⟨f₁ - 1, by omega⟩
      obtain ⟨g₂, rfl⟩ : ∃ g, f₂ = g + 1 := ⟨f₂ - 1, by omega⟩
      have hdiv : n / 16 < n := Nat.div_lt_self hpos (by norm_num)
      simp only [toHexBytesAux, if_neg (by omega : ¬n = 0)]
      rw [ih (n / 16) hdiv g₁ g₂ (by omega) (by omega)]

theorem toHexBytes_pos {n : Nat} (h : 0 < n) :
    toHexBytes n = toHexBytes (n / 16) ++ [hexDigitByte (n % 16)] := by
  obtain ⟨m, rfl⟩ : ∃ m, n = m + 1 := ⟨n - 1, by omega⟩
  show toHexBytesAux (m + 1) (m + 1) = toHexBytes ((m + 1) / 16) ++ _
  rw [toHexBytesAux, if_neg (by omega : ¬m + 1 = 0)]
  congr 1
  exact toHexBytesAux_congr ((m + 1) / 16) m ((m + 1) / 16)
    (by omega) (le_refl _)

theorem mem_toHexBytes_ne_13 : ∀ {n b : Nat}, b ∈ toHexBytes n → b ≠ 13 := by
  intro n
  induction n using Nat.strong_induction_on with
  | _ n ih =>
    intro b hb
    rcases Nat.eq_zero_or_pos n with rfl | hpos
    · simp [toHexBytes, toHexBytesAux] at hb
    · rw [toHexBytes_pos hpos, List.mem_append] at hb
      rcases hb with hb | hb
      · exact ih (n / 16) (Nat.div_lt_self hpos (by norm_num)) hb
      · simp at hb
        subst hb
        exact hexDigitByte_ne_13 (Nat.mod_lt n (by norm_num))

theorem toHexBytes_ne_nil {n : Nat} (h : 0 < n) : toHexBytes n ≠ [] := by
  rw [toHexBytes_pos h]
  simp

theorem parseHexAcc_append (acc : Nat) (l₁ l₂ : List Nat) :
    parseHexAcc acc (l₁ ++ l₂) =
      (parseHexAcc acc l₁).bind (fun v => parseHexAcc v l₂) := by
  induction l₁ generalizing acc with
  | nil => simp [parseHexAcc]
  | cons b rest ih =>
    simp only [List.cons_append, parseHexAcc]
    cases hexVal b <;> simp [ih]

theorem parseHexAcc_toHexBytes (n : Nat) :
    ∀ acc, parseHexAcc acc (toHexBytes n) =
      some (acc * 16 ^ (toHexBytes n).length + n) := by
  induction n using Nat.strong_induction_on with
  | _ n ih =>
    intro acc
    rcases Nat.eq_zero_or_pos n with rfl | hpos
    · simp [toHexBytes, toHexBytesAux, parseHexAcc]
    · rw [toHexBytes_pos hpos, parseHexAcc_append, ih (n / 16) (Nat.div_lt_self hpos (by norm_num))]
      simp only [Option.some_bind, parseHexAcc,
        hexVal_hexDigitByte (Nat.mod_lt n (by norm_num : (0 : Nat) < 16)),
        List.length_append, List.length_singleton]
      congr 1
      rw [pow_succ, ← mul_assoc]
      generalize acc * 16 ^ (toHexBytes (n / 16)).length = q
      omega

theorem parseHexBytes_toHexBytes {n : Nat} (h : 0 < n) :
    parseHexBytes (toHexBytes n) = some n := by
  unfold parseHexBytes
  rw [if_neg (by simpa using toHexBytes_ne_nil h), parseHexAcc_toHexBytes]
  simp

theorem splitLine_append {l r : List Nat} (h : ∀ b ∈ l, b ≠ 13) :
    splitLine (l ++ 13 :: 10 :: r) = some (l, r) := by
  induction l with
  | nil => simp [splitLine]
  | cons b rest ih =>
    have hb : b ≠ 13 := h b (by simp)
    simp only [List.cons_append, splitLine, if_neg hb, List.append_eq]
    rw [ih (fun x hx => h x (by simp [hx]))]
    simp

theorem frameChunks_cons (c : List Nat) (cs : List (List Nat)) :
    frameChunks (c :: cs) = frameChunk c ++ frameChunks cs := by
  simp [frameChunks]

theorem length_frameChunks_ge (cs : List (List Nat)) :
    cs.length ≤ (frameChunks cs).length := by
  induction cs with
  | nil => simp [frameChunks]
  | cons c cs ih =>
    rw [frameChunks_cons]
    simp only [List.length_append, List.length_cons, frameChunk, CRLF]
    simp at *
    omega

theorem dechunkAux_frameChunks (cs : List (List Nat)) :
    ∀ (fuel acc tail : _), (∀ c ∈ cs, c ≠ []) → cs.length < fuel →
      dechunkAux fuel acc (frameChunks cs ++ 48 :: 13 :: 10 :: tail) =
        some (acc ++ cs.flatten, tail) := by
  induction cs with
  | nil =>
    intro fuel acc tail _ hfuel
    obtain ⟨f, rfl⟩ : ∃ f, fuel = f + 1 := ⟨fuel - 1, by omega⟩
    simp only [frameChunks, List.map_nil, List.flatten_nil, List.nil_append,
      List.append_nil]
    unfold dechunkAux
    rw [show splitLine (48 :: 13 :: 10 :: tail) = some ([48], tail) by
      simp [splitLine]]
    rw [Option.some_bind,
      show parseHexBytes [48] = some 0 by decide]
    simp
  | cons c cs ih =>
    intro fuel acc tail hne hfuel
    obtain ⟨f, rfl⟩ : ∃ f, fuel = f + 1 := ⟨fuel - 1, by omega⟩
    have hc : c ≠ [] := hne c (by simp)
    have hlen : 0 < c.length := List.length_pos.mpr hc
    have hinput : frameChunks (c :: cs) ++ 48 :: 13 :: 10 :: tail =
        toHexBytes c.length ++ 13 :: 10 ::
          (c ++ 13 :: 10 :: (frameChunks cs ++ 48 :: 13 :: 10 :: tail)) := by
      rw [frameChunks_cons]
      simp [frameChunk, CRLF]
    rw [hinput]
    unfold dechunkAux
    rw [splitLine_append (fun b hb => mem_toHexBytes_ne_13 hb), Option.some_bind,
      parseHexBytes_toHexBytes hlen, Option.some_bind]
    have htake : (c ++ 13 :: 10 :: (frameChunks cs ++ 48 :: 13 :: 10 :: tail)).take c.length = c :=
      List.take_left c _
    have hdrop : (c ++ 13 :: 10 :: (frameChunks cs ++ 48 :: 13 :: 10 :: tail)).drop c.length =
        13 :: 10 :: (frameChunks cs ++ 48 :: 13 :: 10 :: tail) :=
      List.drop_left c _
    rw [if_neg (by omega),
      if_neg (by simp only [List.length_append, List.length_cons]; omega),
      hdrop, htake]
    rw [if_pos (by simp)]
    simp only [List.drop_succ_cons, List.drop_zero]
    rw [ih f (acc ++ c) tail (fun x hx => hne x (by simp [hx])) (by simp at hfuel ⊢; omega)]
    simp

theorem dechunk_frameChunks {cs : List (List Nat)} {tail : List Nat}
    (h : ∀ c ∈ cs, c ≠ []) :
    dechunk (frameChunks cs ++ 48 :: 13 :: 10 :: tail) = some (cs.flatten, tail) := by
  unfold dechunk
  have hfuel : cs.length < (frameChunks cs ++ 48 :: 13 :: 10 :: tail).length + 1 := by
    have := length_frameChunks_ge cs
    simp [List.length_append]
    omega
  simpa using dechunkAux_frameChunks cs _ [] tail h hfuel

/-! ## Lemmas: the transfer machine -/

theorem take_drop_append (l r : List Nat) (q : Nat) :
    l.take q ++ (l.drop q ++ r) = l ++ r := by
  rw [← List.append_assoc, List.take_append_drop]

theorem pollStepAux_out : ∀ (fuel : Nat) (m : H1BodyToChunkedTransfer) (q : Nat),
    (pollStepAux fuel m q).wrote ++ futureOut (pollStepAux fuel m q).m = futureOut m := by
  intro fuel
  induction fuel with
  | zero => intro m q; simp [pollStepAux]
  | succ f ih =>
    intro m q
    obtain ⟨bt, st, tw, ac⟩ := m
    cases st with
    | sendHead head off body =>
      by_cases hq : (head.drop off).length ≤ q
      · simp only [pollStepAux, if_pos hq]
        rw [List.append_assoc, ih]
        simp [futureOut, stateFutureOut, List.append_assoc]
      · simp only [pollStepAux, if_neg hq, futureOut, stateFutureOut]
        rw [show head.drop (off + q) = (head.drop off).drop q by rw [List.drop_drop]]
        simp only [List.append_assoc]
        rw [take_drop_append]
    | copy c =>
      by_cases hq : c.toWrite.length ≤ q
      · cases bt with
        | true =>
          simp only [pollStepAux, if_pos hq, if_true]
          rw [List.append_assoc, ih]
          simp [futureOut, stateFutureOut]
        | false =>
          simp only [pollStepAux, if_pos hq, futureOut, stateFutureOut]
          simp
      · simp only [pollStepAux, if_neg hq, futureOut, stateFutureOut]
        rw [take_drop_append]
    | sendNoTrailerEnd off =>
      by_cases hq : (NO_TRAILER_END_BUFFER.drop off).length ≤ q
      · simp only [pollStepAux, if_pos hq, futureOut, stateFutureOut]
        simp
      · simp only [pollStepAux, if_neg hq, futureOut, stateFutureOut]
        rw [show NO_TRAILER_END_BUFFER.drop (off + q) =
          (NO_TRAILER_END_BUFFER.drop off).drop q by rw [List.drop_drop]]
        rw [List.take_append_drop]
    | encode e =>
      by_cases hq : e.cur.length ≤ q
      · cases hb : e.batches with
        | cons b bs =>
          simp only [pollStepAux, if_pos hq, hb, futureOut, stateFutureOut]
          simp [List.append_assoc]
        | nil =>
          cases htl : e.termLoaded with
          | true =>
            simp only [pollStepAux, if_pos hq, hb, htl, futureOut, stateFutureOut]
            simp
          | false =>
            simp only [pollStepAux, if_pos hq, hb, htl, futureOut, stateFutureOut]
            simp
      · simp only [pollStepAux, if_neg hq, futureOut, stateFutureOut]
        simp only [List.append_assoc]
        rw [take_drop_append]
    | flushEnd => simp [pollStepAux, futureOut, stateFutureOut]
    | stateEnd => simp [pollStepAux, futureOut, stateFutureOut]

theorem pollStepAux_done_terminal : ∀ (fuel : Nat) (m : H1BodyToChunkedTransfer) (q : Nat),
    (pollStepAux fuel m q).done = true →
    terminalState (pollStepAux fuel m q).m.state = true := by
  intro fuel
  induction fuel with
  | zero => intro m q h; simp [pollStepAux] at h
  | succ f ih =>
    intro m q
    obtain ⟨bt, st, tw, ac⟩ := m
    cases st with
    | sendHead head off body =>
      by_cases hq : (head.drop off).length ≤ q
      · simp only [pollStepAux, if_pos hq]
        exact ih _ _
      · simp only [pollStepAux, if_neg hq]
        intro h
        simp at h
    | copy c =>
      by_cases hq : c.toWrite.length ≤ q
      · cases bt with
        | true =>
          simp only [pollStepAux, if_pos hq, if_true]
          exact ih _ _
        | false =>
          simp only [pollStepAux, if_pos hq]
          intro _
          simp [terminalState]
      · simp only [pollStepAux, if_neg hq]
        intro h
        simp at h
    | sendNoTrailerEnd off =>
      by_cases hq : (NO_TRAILER_END_BUFFER.drop off).length ≤ q
      · simp only [pollStepAux, if_pos hq]
        intro _
        simp [terminalState]
      · simp only [pollStepAux, if_neg hq]
        intro h
        simp at h
    | encode e =>
      by_cases hq : e.cur.length ≤ q
      · cases hb : e.batches with
        | cons b bs =>
          simp only [pollStepAux, if_pos hq, hb]
          intro h
          simp at h
        | nil =>
          cases htl : e.termLoaded with
          | true =>
            simp only [pollStepAux, if_pos hq, hb, htl]
            intro _
            simp [terminalState]
          | false =>
            simp only [pollStepAux, if_pos hq, hb, htl]
            intro h
            simp at h
      · simp only [pollStepAux, if_neg hq]
        intro h
        simp at h
    | flushEnd =>
      intro _
      simp [pollStepAux, terminalState]
    | stateEnd =>
      intro _
      simp [pollStepAux, terminalState]

theorem pollStepAux_total_write_mono : ∀ (fuel : Nat) (m : H1BodyToChunkedTransfer) (q : Nat),
    m.total_write ≤ (pollStepAux fuel m q).m.total_write := by
  intro fuel
  induction fuel with
  | zero => intro m q; simp [pollStepAux]
  | succ f ih =>
    intro m q
    obtain ⟨bt, st, tw, ac⟩ := m
    cases st with
    | sendHead head off body =>
      simp only [pollStepAux]
      split
      · have := ih ⟨bt, .copy ⟨body, 0⟩, tw + head.length, true⟩ (q - (head.drop off).length)
        simp at this ⊢
        omega
      · simp
    | copy c =>
      simp only [pollStepAux]
      split
      · cases bt with
        | true =>
          simp only [if_true]
          have := ih ⟨true, .sendNoTrailerEnd 0, tw + (c.copied + c.toWrite.length), true⟩
            (q - c.toWrite.length)
          simp at this ⊢
          omega
        | false => simp
      · simp
    | sendNoTrailerEnd off =>
      simp only [pollStepAux]
      split <;> simp
    | encode e =>
      simp only [pollStepAux]
      split
      · cases hb : e.batches with
        | cons b bs => simp
        | nil =>
          cases htl : e.termLoaded with
          | true => simp [htl]
          | false => simp [htl]
      · simp
    | flushEnd => simp [pollStepAux]
    | stateEnd => simp [pollStepAux]

theorem pollStep_out (m : H1BodyToChunkedTransfer) (q : Nat) :
    (pollStep m q).wrote ++ futureOut (pollStep m q).m = futureOut m :=
  pollStepAux_out 3 m q

theorem pollStep_done_terminal {m : H1BodyToChunkedTransfer} {q : Nat}
    (h : (pollStep m q).done = true) :
    terminalState (pollStep m q).m.state = true :=
  pollStepAux_done_terminal 3 m q h

theorem pollStep_total_write_mono (m : H1BodyToChunkedTransfer) (q : Nat) :
    m.total_write ≤ (pollStep m q).m.total_write :=
  pollStepAux_total_write_mono 3 m q

theorem terminal_futureOut {m : H1BodyToChunkedTransfer}
    (h : terminalState m.state = true) : futureOut m = [] := by
  obtain ⟨bt, st, tw, ac⟩ := m
  cases st <;> simp [terminalState] at h ⊢ <;> simp [futureOut, stateFutureOut]

theorem runPolls_out : ∀ (qs : List Nat) (m : H1BodyToChunkedTransfer),
    (runPolls m qs).2.1 ++ futureOut (runPolls m qs).1 = futureOut m := by
  intro qs
  induction qs with
  | nil => intro m; simp [runPolls]
  | cons q qs ih =>
    intro m
    simp only [runPolls]
    cases hdone : (pollStep m q).done with
    | true =>
      simp only [hdone, if_true]
      exact pollStep_out m q
    | false =>
      simp only [hdone, Bool.false_eq_true, if_false]
      rw [List.append_assoc, ih]
      exact pollStep_out m q

theorem runPolls_done_terminal : ∀ (qs : List Nat) (m : H1BodyToChunkedTransfer),
    (runPolls m qs).2.2 = true → terminalState (runPolls m qs).1.state = true := by
  intro qs
  induction qs with
  | nil => intro m h; simp [runPolls] at h
  | cons q qs ih =>
    intro m
    simp only [runPolls]
    cases hdone : (pollStep m q).done with
    | true =>
      simp only [hdone, if_true]
      intro _
      exact pollStep_done_terminal hdone
    | false =>
      simp only [hdone, Bool.false_eq_true, if_false]
      exact ih (pollStep m q).m

theorem runPolls_total_write_mono : ∀ (qs : List Nat) (m : H1BodyToChunkedTransfer),
    m.total_write ≤ (runPolls m qs).1.total_write := by
  intro qs
  induction qs with
  | nil => intro m; simp [runPolls]
  | cons q qs ih =>
    intro m
    simp only [runPolls]
    cases hdone : (pollStep m q).done with
    | true =>
      simp only [hdone, if_true]
      exact pollStep_total_write_mono m q
    | false =>
      simp only [hdone, Bool.false_eq_true, if_false]
      exact le_trans (pollStep_total_write_mono m q) (ih (pollStep m q).m)

theorem runPolls_done_out {m : H1BodyToChunkedTransfer} {qs : List Nat}
    (h : (runPolls m qs).2.2 = true) : (runPolls m qs).2.1 = futureOut m := by
  have h1 := runPolls_out qs m
  rw [terminal_futureOut (runPolls_done_terminal qs m h)] at h1
  simpa using h1

theorem pollStepAux_fixedLenInv {headLen len : Nat} :
    ∀ (fuel : Nat) (m : H1BodyToChunkedTransfer) (q : Nat),
    fixedLenInv headLen len m → fixedLenInv headLen len (pollStepAux fuel m q).m := by
  intro fuel
  induction fuel with
  | zero => intro m q h; simpa [pollStepAux] using h
  | succ f ih =>
    intro m q hinv
    obtain ⟨bt, st, tw, ac⟩ := m
    obtain ⟨hbt, hst⟩ := hinv
    simp only at hbt
    subst hbt
    cases st with
    | sendHead head off body =>
      simp only [fixedLenInv] at hst
      obtain ⟨hhead, hbody, htw⟩ := hst
      simp only [pollStepAux]
      split
      · apply ih
        constructor
        · rfl
        · simp only [fixedLenInv]
          omega
      · constructor
        · rfl
        · simp only [fixedLenInv]
          exact ⟨hhead, hbody, htw⟩
    | copy c =>
      simp only [fixedLenInv] at hst
      obtain ⟨hcp, htw⟩ := hst
      simp only [pollStepAux]
      split
      · simp only [if_true]
        apply ih
        constructor
        · rfl
        · simp only [fixedLenInv]
          omega
      · constructor
        · rfl
        · simp only [fixedLenInv]
          rename_i hq
          simp only [List.length_drop]
          omega
    | sendNoTrailerEnd off =>
      simp only [fixedLenInv] at hst
      simp only [pollStepAux]
      split
      · exact ⟨rfl, hst⟩
      · exact ⟨rfl, hst⟩
    | encode e =>
      simp only [fixedLenInv] at hst
    | flushEnd =>
      simp only [fixedLenInv] at hst
      simp only [pollStepAux]
      exact ⟨rfl, hst⟩
    | stateEnd =>
      simp only [fixedLenInv] at hst
      simp only [pollStepAux]
      exact ⟨rfl, hst⟩

theorem runPolls_fixedLenInv {headLen len : Nat} :
    ∀ (qs : List Nat) (m : H1BodyToChunkedTransfer),
    fixedLenInv headLen len m → fixedLenInv headLen len (runPolls m qs).1 := by
  intro qs
  induction qs with
  | nil => intro m h; simpa [runPolls] using h
  | cons q qs ih =>
    intro m hinv
    simp only [runPolls]
    cases hdone : (pollStep m q).done with
    | true =>
      simp only [hdone, if_true]
      exact pollStepAux_fixedLenInv 3 m q hinv
    | false =>
      simp only [hdone, Bool.false_eq_true, if_false]
      exact ih (pollStep m q).m (pollStepAux_fixedLenInv 3 m q hinv)

theorem pollStepAux_noHeadCopy :
    ∀ (fuel : Nat) (m : H1BodyToChunkedTransfer) (q : Nat),
    noHeadCopyState m.state = true →
    noHeadCopyState (pollStepAux fuel m q).m.state = true := by
  intro fuel
  induction fuel with
  | zero => intro m q h; simpa [pollStepAux] using h
  | succ f ih =>
    intro m q h
    obtain ⟨bt, st, tw, ac⟩ := m
    cases st with
    | sendHead head off body => simp [noHeadCopyState] at h
    | copy c => simp [noHeadCopyState] at h
    | encode e => simp [noHeadCopyState] at h
    | sendNoTrailerEnd off =>
      simp only [pollStepAux]
      split <;> simp [noHeadCopyState]
    | flushEnd => simp [pollStepAux, noHeadCopyState]
    | stateEnd => simp [pollStepAux, noHeadCopyState]

theorem runPolls_noHeadCopy : ∀ (qs : List Nat) (m : H1BodyToChunkedTransfer),
    noHeadCopyState m.state = true →
    noHeadCopyState (runPolls m qs).1.state = true := by
  intro qs
  induction qs with
  | nil => intro m h; simpa [runPolls] using h
  | cons q qs ih =>
    intro m h
    simp only [runPolls]
    cases hdone : (pollStep m q).done with
    | true =>
      simp only [hdone, if_true]
      exact pollStepAux_noHeadCopy 3 m q h
    | false =>
      simp only [hdone, Bool.false_eq_true, if_false]
      exact ih (pollStep m q).m (pollStepAux_noHeadCopy 3 m q h)

/-! ## Claim theorems -/

/-- C1: for every idle quit of the bidirectional ICAP driver, the returned
error matches the blame table of spec section 4.4.  The first conjunct
covers the `do_transfer` quit (where the client leg is idle at every quit,
since the idle count only advances when both legs are idle); the second
covers the `transfer_and_recv` quit, whose only watched leg is the upstream
one.  All four table rows are exercised. -/
theorem idle_blame_matches_table :
    (∀ upsIdle upsNoCache cltNoCache : Bool,
      some (doTransferIdleVerdict upsIdle upsNoCache cltNoCache) =
        specBlameVerdict upsIdle upsNoCache true cltNoCache) ∧
    (∀ noCache cltIdle cltCache : Bool,
      some (transferAndRecvIdleVerdict noCache) =
        specBlameVerdict true noCache cltIdle cltCache) := by
  constructor <;> intro a b c <;> cases a <;> cases b <;> cases c <;> rfl

/-- C2 counterexample: the claim says `total_write` equals, on success,
exactly the payload bytes emitted (excluding framing overhead the writer
produced).  For a `ContentLength(9)` body of nine payload bytes the machine
completes with `total_write = 12`: the three bytes of the chunk size head
`9` CRLF written in the `SendHead` state are counted as well (line 206 of
body_to_chunked.rs adds the head offset), so `total_write` is not the
payload count 9. -/
theorem total_write_counterexample :
    (runPolls (H1BodyToChunkedTransfer.new_fixed_length (List.replicate 12 97) 9) [50]).2.2
      = true ∧
    Option.map (fun p => p.1.length)
      (dechunk (runPolls (H1BodyToChunkedTransfer.new_fixed_length
        (List.replicate 12 97) 9) [50]).2.1) = some 9 ∧
    (runPolls (H1BodyToChunkedTransfer.new_fixed_length (List.replicate 12 97) 9) [50]).1.total_write
      = 12 ∧
    (runPolls (H1BodyToChunkedTransfer.new_fixed_length (List.replicate 12 97) 9) [50]).1.total_write
      ≠ 9 := by
  refine ⟨by decide, by decide, by decide, by decide⟩

/-- C2 amended: `total_write` is monotonically non-decreasing across polls
and across whole runs; on successful completion of a fixed length transfer
it equals the payload byte count plus the length of the chunk size head the
writer emitted in the `SendHead` state (the trailing CRLF and the
terminator emitted in `SendNoTrailerEnd` are not counted). -/
theorem total_write_monotone_and_accounting :
    (∀ (m : H1BodyToChunkedTransfer) (q : Nat),
      m.total_write ≤ (pollStep m q).m.total_write) ∧
    (∀ (m : H1BodyToChunkedTransfer) (qs : List Nat),
      m.total_write ≤ (runPolls m qs).1.total_write) ∧
    (∀ (body : List Nat) (len : Nat) (qs : List Nat),
      0 < len → len ≤ body.length →
      (runPolls (H1BodyToChunkedTransfer.new_fixed_length body len) qs).2.2 = true →
      (runPolls (H1BodyToChunkedTransfer.new_fixed_length body len) qs).1.total_write =
        (toHexBytes len ++ CRLF).length + len) := by
  refine ⟨pollStep_total_write_mono, fun m qs => runPolls_total_write_mono qs m, ?_⟩
  intro body len qs hpos hle hdone
  have hinv : fixedLenInv (toHexBytes len ++ CRLF).length len
      (H1BodyToChunkedTransfer.new_fixed_length body len) := by
    unfold H1BodyToChunkedTransfer.new_fixed_length
    rw [if_neg (by omega)]
    unfold fixedLenInv
    refine ⟨rfl, rfl, ?_, rfl⟩
    simp [List.length_take]
    omega
  have hfin := runPolls_fixedLenInv qs _ hinv
  have hterm := runPolls_done_terminal qs _ hdone
  obtain ⟨hbt, hst⟩ := hfin
  cases hstate : (runPolls (H1BodyToChunkedTransfer.new_fixed_length body len) qs).1.state with
  | sendHead head off b => rw [hstate] at hterm; simp [terminalState] at hterm
  | copy c => rw [hstate] at hterm; simp [terminalState] at hterm
  | sendNoTrailerEnd off => rw [hstate] at hterm; simp [terminalState] at hterm
  | encode e => rw [hstate] at hterm; simp [terminalState] at hterm
  | flushEnd => rw [hstate] at hst; exact hst
  | stateEnd => rw [hstate] at hst; exact hst

/-- C2 witness: the monotonicity and accounting theorem applied at a
concrete fixed length run. -/
theorem total_write_accounting_witness :
    0 < 9 ∧ 9 ≤ (List.replicate 12 (97 : Nat)).length ∧
    (runPolls (H1BodyToChunkedTransfer.new_fixed_length (List.replicate 12 97) 9) [50]).2.2
      = true ∧
    (runPolls (H1BodyToChunkedTransfer.new_fixed_length (List.replicate 12 97) 9) [50]).1.total_write
      = (toHexBytes 9 ++ CRLF).length + 9 :=
  ⟨by decide, by decide, by decide,
    total_write_monotone_and_accounting.2.2 (List.replicate 12 97) 9 [50]
      (by decide) (by decide) (by decide)⟩

/-- C3: for every body type and suitable source, the stream the transfer
writes, parsed as HTTP/1 chunked transfer encoding and de-framed, yields
exactly the source payload; and for the re-encoded bodies (fixed length and
read-until-end) the written stream ends with the terminator `0` CRLF CRLF.
The fixed length payload is the first `len` source bytes; a chunked source
is a framed chunk sequence with optional trailer whose payload is the chunk
concatenation; a read-until-end source is its list of nonempty read
batches, whose payload is their concatenation. -/
theorem chunked_roundtrip :
    ∀ qs : List Nat,
    (∀ (body : List Nat) (len : Nat), len ≤ body.length →
      (runPolls (H1BodyToChunkedTransfer.new_fixed_length body len) qs).2.2 = true →
      Option.map Prod.fst
          (dechunk (runPolls (H1BodyToChunkedTransfer.new_fixed_length body len) qs).2.1) =
        some (body.take len) ∧
      ∃ pre, (runPolls (H1BodyToChunkedTransfer.new_fixed_length body len) qs).2.1 =
        pre ++ TERM_BUFFER) ∧
    (∀ (chunks : List (List Nat)) (trailer : List Nat), (∀ c ∈ chunks, c ≠ []) →
      (runPolls (H1BodyToChunkedTransfer.new_chunked
        (chunkedReaderSurfaced chunks trailer)) qs).2.2 = true →
      Option.map Prod.fst
          (dechunk (runPolls (H1BodyToChunkedTransfer.new_chunked
            (chunkedReaderSurfaced chunks trailer)) qs).2.1) =
        some chunks.flatten) ∧
    (∀ batches : List (List Nat), (∀ b ∈ batches, b ≠ []) →
      (runPolls (H1BodyToChunkedTransfer.new_read_until_end batches) qs).2.2 = true →
      Option.map Prod.fst
          (dechunk (runPolls (H1BodyToChunkedTransfer.new_read_until_end batches) qs).2.1) =
        some batches.flatten ∧
      ∃ pre, (runPolls (H1BodyToChunkedTransfer.new_read_until_end batches) qs).2.1 =
        pre ++ TERM_BUFFER) := by
  intro qs
  refine ⟨?_, ?_, ?_⟩
  · intro body len hle hdone
    rw [runPolls_done_out hdone]
    rcases Nat.eq_zero_or_pos len with rfl | hpos
    · have hfo : futureOut (H1BodyToChunkedTransfer.new_fixed_length body 0) = TERM_BUFFER := by
        simp [H1BodyToChunkedTransfer.new_fixed_length, futureOut, stateFutureOut,
          NO_TRAILER_END_BUFFER, TERM_BUFFER]
      rw [hfo]
      constructor
      · have heq : TERM_BUFFER = frameChunks [] ++ 48 :: 13 :: 10 :: CRLF := rfl
        rw [heq, dechunk_frameChunks (by simp)]
        simp
      · exact ⟨[], by simp⟩
    · have hplen : (body.take len).length = len := by
        simp [List.length_take]
        omega
      have hpne : body.take len ≠ [] := by
        intro hcon
        rw [hcon] at hplen
        simp at hplen
        omega
      have hfo : futureOut (H1BodyToChunkedTransfer.new_fixed_length body len) =
          frameChunks [body.take len] ++ 48 :: 13 :: 10 :: CRLF := by
        unfold H1BodyToChunkedTransfer.new_fixed_length
        rw [if_neg (by omega)]
        simp [futureOut, stateFutureOut, frameChunks, frameChunk, CRLF,
          NO_TRAILER_END_BUFFER, hplen, List.append_assoc]
      rw [hfo, dechunk_frameChunks (by simp [hpne])]
      constructor
      · simp
      · refine ⟨toHexBytes len ++ CRLF ++ body.take len ++ CRLF, ?_⟩
        simp [frameChunks, frameChunk, CRLF, TERM_BUFFER, hplen, List.append_assoc]
  · intro chunks trailer hne hdone
    rw [runPolls_done_out hdone]
    have hfo : futureOut (H1BodyToChunkedTransfer.new_chunked
        (chunkedReaderSurfaced chunks trailer)) =
        frameChunks chunks ++ 48 :: 13 :: 10 :: (trailer ++ CRLF) := by
      simp [H1BodyToChunkedTransfer.new_chunked, futureOut, stateFutureOut,
        chunkedReaderSurfaced]
    rw [hfo, dechunk_frameChunks hne]
    simp
  · intro batches hne hdone
    rw [runPolls_done_out hdone]
    have hfo : futureOut (H1BodyToChunkedTransfer.new_read_until_end batches) =
        frameChunks batches ++ 48 :: 13 :: 10 :: CRLF := by
      simp [H1BodyToChunkedTransfer.new_read_until_end, futureOut, stateFutureOut,
        frameChunks, TERM_BUFFER, CRLF, List.append_assoc]
    rw [hfo, dechunk_frameChunks hne]
    refine ⟨by simp, ⟨frameChunks batches, rfl⟩⟩

/-- C3 witness: the roundtrip theorem applied at concrete runs of all three
body types. -/
theorem chunked_roundtrip_witness :
    (2 ≤ ([97, 98, 99] : List Nat).length ∧
      (runPolls (H1BodyToChunkedTransfer.new_fixed_length [97, 98, 99] 2) [50]).2.2 = true ∧
      Option.map Prod.fst
          (dechunk (runPolls (H1BodyToChunkedTransfer.new_fixed_length [97, 98, 99] 2) [50]).2.1) =
        some [97, 98]) ∧
    ((runPolls (H1BodyToChunkedTransfer.new_chunked
        (chunkedReaderSurfaced [[97], [98, 99]] [65, 58, 32, 66, 13, 10])) [50]).2.2 = true ∧
      Option.map Prod.fst
          (dechunk (runPolls (H1BodyToChunkedTransfer.new_chunked
            (chunkedReaderSurfaced [[97], [98, 99]] [65, 58, 32, 66, 13, 10])) [50]).2.1) =
        some [97, 98, 99]) ∧
    ((runPolls (H1BodyToChunkedTransfer.new_read_until_end [[97, 98], [99]])
        [50, 50, 50, 50, 50, 50]).2.2 = true ∧
      Option.map Prod.fst
          (dechunk (runPolls (H1BodyToChunkedTransfer.new_read_until_end [[97, 98], [99]])
            [50, 50, 50, 50, 50, 50]).2.1) = some [97, 98, 99]) :=
  ⟨⟨by decide, by decide,
      ((chunked_roundtrip [50]).1 [97, 98, 99] 2 (by decide) (by decide)).1⟩,
   ⟨by decide,
      (chunked_roundtrip [50]).2.1 [[97], [98, 99]] [65, 58, 32, 66, 13, 10]
        (by decide) (by decide)⟩,
   ⟨by decide,
      ((chunked_roundtrip [50, 50, 50, 50, 50, 50]).2.2 [[97, 98], [99]]
        (by decide) (by decide)).1⟩⟩

/-- C4: in the bidirectional driver, a declared `Content-Length` is
compared against the client-leg copied size after the transfer and any
mismatch is `InvalidHttpBodyFromIcapServer`; a declared `Content-Length` of
zero together with a present http-body section is also
`InvalidHttpBodyFromIcapServer`. -/
theorem content_length_mismatch_rejected :
    ∀ expected copied : Nat,
      (copied ≠ expected →
        contentLengthVerdict (some expected) copied =
          .error .invalidHttpBodyFromIcapServer) ∧
      (copied = expected → 0 < expected →
        contentLengthVerdict (some expected) copied = .ok .adaptedTransferred) ∧
      contentLengthVerdict (some 0) copied =
        .error .invalidHttpBodyFromIcapServer := by
  intro expected copied
  refine ⟨?_, ?_, ?_⟩
  · intro hne
    cases expected with
    | zero => simp [contentLengthVerdict]
    | succ e => simp [contentLengthVerdict, hne]
  · intro heq hpos
    cases expected with
    | zero => omega
    | succ e => simp [contentLengthVerdict, heq]
  · simp [contentLengthVerdict]

/-- C4 witness: the content length validation applied at a mismatch, a
match and the zero length case. -/
theorem content_length_mismatch_witness :
    ((3 : Nat) ≠ 2 ∧
      contentLengthVerdict (some 2) 3 = .error .invalidHttpBodyFromIcapServer) ∧
    ((2 : Nat) = 2 ∧ 0 < 2 ∧
      contentLengthVerdict (some 2) 2 = .ok .adaptedTransferred) ∧
    contentLengthVerdict (some 0) 5 = .error .invalidHttpBodyFromIcapServer :=
  ⟨⟨by decide, (content_length_mismatch_rejected 2 3).1 (by decide)⟩,
   ⟨by decide, by decide,
     (content_length_mismatch_rejected 2 2).2.1 (by decide) (by decide)⟩,
   (content_length_mismatch_rejected 0 5).2.2⟩

/-- C5 counterexample: the claim says every select loop of the driver polls
its arms in fixed biased priority with the idle tick last.  The
`do_transfer` select carries no `biased;` marker, so the runtime may start
an iteration at any arm: with random start 2 the idle tick arm is polled
first. -/
theorem select_biased_counterexample :
    doTransferHasBiased = false ∧
    (doTransferPollOrder 2).head? = some DoTransferSelectArm.idleTick := by
  exact ⟨rfl, rfl⟩

/-- C5 amended: only the `transfer_and_recv` select is biased, polling
upstream completion, then ICAP reader readiness, then the idle tick, in
that fixed order for every random start; the `do_transfer` select is
unbiased, and for some random start its idle tick arm is polled before the
data arms. -/
theorem select_priority_amended :
    (∀ start : Fin 3, transferAndRecvPollOrder start =
      [RespmodSelectArm.bodyTransfer, RespmodSelectArm.icapReaderWait,
        RespmodSelectArm.idleTick]) ∧
    transferAndRecvHasBiased = true ∧
    doTransferHasBiased = false ∧
    (doTransferPollOrder 2).head? = some DoTransferSelectArm.idleTick := by
  exact ⟨fun _ => rfl, rfl, rfl, rfl⟩

/-- C6: a transfer constructed with `ContentLength(0)` starts directly in
the `SendNoTrailerEnd` state with offset 2, never passes through the
`SendHead`, `Copy` or `Encode` states, and the bytes written over any run
are a prefix of, and on completion exactly, the terminator `0` CRLF CRLF. -/
theorem fixed_zero_only_terminator :
    ∀ (body : List Nat) (qs : List Nat),
      (H1BodyToChunkedTransfer.new_fixed_length body 0).state =
        ChunkedTransferState.sendNoTrailerEnd 2 ∧
      noHeadCopyState
        (runPolls (H1BodyToChunkedTransfer.new_fixed_length body 0) qs).1.state = true ∧
      (runPolls (H1BodyToChunkedTransfer.new_fixed_length body 0) qs).2.1 ++
        futureOut (runPolls (H1BodyToChunkedTransfer.new_fixed_length body 0) qs).1 =
        TERM_BUFFER ∧
      ((runPolls (H1BodyToChunkedTransfer.new_fixed_length body 0) qs).2.2 = true →
        (runPolls (H1BodyToChunkedTransfer.new_fixed_length body 0) qs).2.1 =
          TERM_BUFFER) := by
  intro body qs
  have hfo : futureOut (H1BodyToChunkedTransfer.new_fixed_length body 0) = TERM_BUFFER := by
    simp [H1BodyToChunkedTransfer.new_fixed_length, futureOut, stateFutureOut,
      NO_TRAILER_END_BUFFER, TERM_BUFFER]
  refine ⟨by simp [H1BodyToChunkedTransfer.new_fixed_length], ?_, ?_, ?_⟩
  · apply runPolls_noHeadCopy
    simp [H1BodyToChunkedTransfer.new_fixed_length, noHeadCopyState]
  · have h := runPolls_out qs (H1BodyToChunkedTransfer.new_fixed_length body 0)
    rw [hfo] at h
    exact h
  · intro hdone
    rw [runPolls_done_out hdone, hfo]

/-- C6 witness: the zero length theorem applied at a concrete run. -/
theorem fixed_zero_only_terminator_witness :
    (runPolls (H1BodyToChunkedTransfer.new_fixed_length [1, 2, 3] 0) [50]).2.2 = true ∧
    (runPolls (H1BodyToChunkedTransfer.new_fixed_length [1, 2, 3] 0) [50]).2.1 =
      TERM_BUFFER :=
  ⟨by decide, (fixed_zero_only_terminator [1, 2, 3] [50]).2.2.2 (by decide)⟩

/-- C7 counterexample: the claim says every server config parse accepts the
deprecated aliases `tcp_conn_speed_limit` and `conn_limit` with a warning.
The OpensslProxy config rejects `conn_limit` as an invalid key, and accepts
`tcp_conn_speed_limit` without logging any warning. -/
theorem deprecated_alias_counterexample :
    opensslProxySet ⟨0, 0, false, false⟩ "conn_limit" 5 =
      .error "invalid key conn_limit" ∧
    opensslProxySet ⟨0, 0, false, false⟩ "tcp_conn_speed_limit" 5 =
      .ok ⟨⟨5, 0, false, false⟩, false⟩ := by
  constructor <;> simp [opensslProxySet]

/-- C7 amended: the TcpTProxy config accepts the deprecated aliases
`tcp_conn_speed_limit`, `tcp_conn_limit` and `conn_limit` with a warning
and yields the same parsed config as the canonical `tcp_sock_speed_limit`;
the OpensslProxy config accepts `tcp_conn_speed_limit` (yielding the same
parsed config, but without any warning) and rejects `conn_limit` as an
invalid key. -/
theorem deprecated_alias_amended :
    ∀ (c : TcpTProxyServerConfig) (c2 : OpensslProxyServerConfig) (v : Nat),
      tcpTProxySet c "tcp_conn_speed_limit" v =
        .ok ⟨{ c with tcp_sock_speed_limit := v }, true⟩ ∧
      tcpTProxySet c "tcp_conn_limit" v =
        .ok ⟨{ c with tcp_sock_speed_limit := v }, true⟩ ∧
      tcpTProxySet c "conn_limit" v =
        .ok ⟨{ c with tcp_sock_speed_limit := v }, true⟩ ∧
      tcpTProxySet c "tcp_sock_speed_limit" v =
        .ok ⟨{ c with tcp_sock_speed_limit := v }, false⟩ ∧
      opensslProxySet c2 "tcp_conn_speed_limit" v =
        .ok ⟨{ c2 with tcp_sock_speed_limit := v }, false⟩ ∧
      opensslProxySet c2 "tcp_sock_speed_limit" v =
        .ok ⟨{ c2 with tcp_sock_speed_limit := v }, false⟩ ∧
      opensslProxySet c2 "conn_limit" v = .error "invalid key conn_limit" := by
  intro c c2 v
  refine ⟨?_, ?_, ?_, ?_, ?_, ?_, ?_⟩ <;> simp [tcpTProxySet, opensslProxySet]

/-- C8: the dual family UDP relay receiver polls the v4 socket first and
returns its result whenever it is ready; the v6 socket is consulted only
when v4 is pending; with both sockets absent the call fails with
`NoListenSocket`.  Stated for both the single packet and the batched
receive paths. -/
theorem udp_recv_v4_biased :
    (∀ (b4 b6 : Nat) (t : Except Nat (Nat × Nat)) (r6 : Poll (Except Nat (Nat × Nat))),
      DirectUdpRelayRemoteRecv.poll_recv_packet ⟨some (.ready t), some r6, b4, b6⟩ =
        .ready (mapRecvResult b4 t)) ∧
    (∀ (b4 b6 : Nat) (r6 : Poll (Except Nat (Nat × Nat))),
      DirectUdpRelayRemoteRecv.poll_recv_packet ⟨some .pending, some r6, b4, b6⟩ =
        match r6 with
        | .ready t => .ready (mapRecvResult b6 t)
        | .pending => .pending) ∧
    (∀ b4 b6 : Nat,
      DirectUdpRelayRemoteRecv.poll_recv_packet ⟨none, none, b4, b6⟩ =
        .ready (.error .noListenSocket)) ∧
    (∀ (b4 b6 : Nat) (t : Except Nat Nat) (r6 : Poll (Except Nat Nat)),
      DirectUdpRelayRemoteRecvBatch.poll_recv_packets ⟨some (.ready t), some r6, b4, b6⟩ =
        .ready (mapBatchRecvResult b4 t)) ∧
    (∀ (b4 b6 : Nat) (r6 : Poll (Except Nat Nat)),
      DirectUdpRelayRemoteRecvBatch.poll_recv_packets ⟨some .pending, some r6, b4, b6⟩ =
        match r6 with
        | .ready t => .ready (mapBatchRecvResult b6 t)
        | .pending => .pending) ∧
    (∀ b4 b6 : Nat,
      DirectUdpRelayRemoteRecvBatch.poll_recv_packets ⟨none, none, b4, b6⟩ =
        .ready (.error .noListenSocket)) := by
  refine ⟨fun b4 b6 t r6 => rfl, fun b4 b6 r6 => ?_, fun b4 b6 => rfl,
    fun b4 b6 t r6 => rfl, fun b4 b6 r6 => ?_, fun b4 b6 => rfl⟩
  · cases r6 <;> rfl
  · cases r6 <;> rfl

/-- C9: after every successful config check of the TcpTProxy and
OpensslProxy server configs, `task_idle_check_duration` is at most
`IDLE_CHECK_MAXIMUM_DURATION`; a configured value above the maximum is
silently clamped to the maximum (the check still succeeds) rather than
rejected. -/
theorem idle_duration_clamped :
    (∀ (c c9 : TcpTProxyServerConfig), tcpTProxyCheck c = .ok c9 →
      c9.task_idle_check_duration ≤ IDLE_CHECK_MAXIMUM_DURATION) ∧
    (∀ c : TcpTProxyServerConfig, c.nameIsEmpty = false → c.escaperIsEmpty = false →
      c.listenCheckOk = true →
      IDLE_CHECK_MAXIMUM_DURATION < c.task_idle_check_duration →
      tcpTProxyCheck c =
        .ok { c with task_idle_check_duration := IDLE_CHECK_MAXIMUM_DURATION }) ∧
    (∀ (c c9 : OpensslProxyServerConfig), opensslProxyCheck c = .ok c9 →
      c9.task_idle_check_duration ≤ IDLE_CHECK_MAXIMUM_DURATION) ∧
    (∀ c : OpensslProxyServerConfig, c.nameIsEmpty = false → c.hostsIsEmpty = false →
      IDLE_CHECK_MAXIMUM_DURATION < c.task_idle_check_duration →
      opensslProxyCheck c =
        .ok { c with task_idle_check_duration := IDLE_CHECK_MAXIMUM_DURATION }) := by
  refine ⟨?_, ?_, ?_, ?_⟩
  · intro c c9 h
    simp only [tcpTProxyCheck] at h
    split_ifs at h with h1 h2 h3 h4 <;>
      first
        | (solve | simp at h)
        | (rw [Except.ok.injEq] at h; subst h; solve | simp | omega)
  · intro c h1 h2 h3 h4
    simp [tcpTProxyCheck, h1, h2, h3, h4]
  · intro c c9 h
    simp only [opensslProxyCheck] at h
    split_ifs at h with h1 h2 h3 <;>
      first
        | (solve | simp at h)
        | (rw [Except.ok.injEq] at h; subst h; solve | simp | omega)
  · intro c h1 h2 h3
    simp [opensslProxyCheck, h1, h2, h3]

/-- C9 witness: the clamping theorem applied at concrete over-maximum
configs of both kinds. -/
theorem idle_duration_clamped_witness :
    (tcpTProxyCheck ⟨7, 1000, false, false, true⟩ =
      .ok ⟨7, IDLE_CHECK_MAXIMUM_DURATION, false, false, true⟩) ∧
    (opensslProxyCheck ⟨7, 1000, false, false⟩ =
      .ok ⟨7, IDLE_CHECK_MAXIMUM_DURATION, false, false⟩) :=
  ⟨idle_duration_clamped.2.1 ⟨7, 1000, false, false, true⟩ rfl rfl rfl (by decide),
   idle_duration_clamped.2.2.2 ⟨7, 1000, false, false⟩ rfl rfl (by decide)⟩

/-- C10: in the body phase of `do_transfer`, once the upstream leg
completes successfully the client leg copy is awaited directly to
completion; from that point the outcome is success, `IcapServerReadFailed`
or `HttpClientWriteFailed` — never one of the four idle verdicts and never
`IdleForceQuit`. -/
theorem after_upstream_ok_no_idle_verdict :
    ∀ (n : Nat) (clt : StreamCopyResult),
      (doTransferUpsArmResult (.ok n) clt = .ok ∨
        doTransferUpsArmResult (.ok n) clt = .err .icapServerReadFailed ∨
        doTransferUpsArmResult (.ok n) clt = .err .httpClientWriteFailed) ∧
      doTransferUpsArmResult (.ok n) clt ≠ .err .httpUpstreamReadIdle ∧
      doTransferUpsArmResult (.ok n) clt ≠ .err .icapServerWriteIdle ∧
      doTransferUpsArmResult (.ok n) clt ≠ .err .icapServerReadIdle ∧
      doTransferUpsArmResult (.ok n) clt ≠ .err .httpClientWriteIdle ∧
      doTransferUpsArmResult (.ok n) clt ≠ .err .idleForceQuit := by
  intro n clt
  cases clt <;> simp [doTransferUpsArmResult]

/-- C10 witness: the upstream-ok theorem applied at a concrete client leg
result. -/
theorem after_upstream_ok_witness :
    doTransferUpsArmResult (.ok 5) .readFailed = .err .icapServerReadFailed ∧
    doTransferUpsArmResult (.ok 5) .readFailed ≠ .err .icapServerReadIdle :=
  ⟨rfl, (after_upstream_ok_no_idle_verdict 5 .readFailed).2.2.2.1⟩

end G3
